import Mathlib

/-!
Shallow embedding of two annotation passes of the repository:

* `crates/ide/src/inlay_hints/chaining.rs` — the chaining inlay-hint pass
  (`hints`), which walks an expression's following sibling tokens, skips
  trivia, and emits a type hint when the chain continuation crosses a line
  break.
* `src/enum_glob_use.rs` — the `ENUM_GLOB_USE` lint pass (`lint_item`),
  which flags non-public glob `use` items whose target resolves to an enum,
  via a local node lookup or an external def-path/metadata lookup.

Pure data is translated directly; the semantic oracles (type inference,
def maps, metadata store) are modelled as records of functions supplied by
the caller, mirroring the narrow interfaces the source consumes.
-/

namespace Chaining

/-- Token kinds relevant to the pass: the filter in `hints` inspects
`SyntaxKind::WHITESPACE` and `SyntaxKind::COMMENT`, and the matcher looks
for `T![.]`; every other kind is only ever retained unchanged. -/
inductive SyntaxKind where
  | WHITESPACE
  | COMMENT
  | DOT
  | IDENT
  | OTHER
deriving DecidableEq, Repr

/-- A syntax token: a kind tag and its text (`t.kind()`, `t.text()`); the
text is modelled as its character list. -/
structure Token where
  kind : SyntaxKind
  text : List Char
deriving DecidableEq, Repr

/-- An element of the sibling stream (`NodeOrToken`); `hints` keeps only the
token side (`filter_map(NodeOrToken::into_token)`), so node payloads are
irrelevant and dropped. -/
inductive NodeOrToken where
  | node
  | token (t : Token)
deriving DecidableEq, Repr

/-- `NodeOrToken::into_token`. -/
def intoToken : NodeOrToken → Option Token
  | NodeOrToken.node => none
  | NodeOrToken.token t => some t

/-- Expression kinds the pass branches on: `matches!(expr, ast::Expr::RecordExpr(_))`
and `matches!(expr, ast::Expr::PathExpr(_))`; all other forms behave alike. -/
inductive ExprKind where
  | recordExpr
  | pathExpr
  | methodCallExpr
  | otherExpr
deriving DecidableEq, Repr

/-- Text range of a node (`expr.syntax().text_range()`). -/
structure TextRange where
  start : Nat
  stop : Nat
deriving DecidableEq, Repr

/-- An expression node: its variant tag and its text range. The following
sibling token stream is the node's tree context and is passed to `hints`
separately (`expr.syntax().siblings_with_tokens(Direction::Next)`). -/
structure Expr where
  kind : ExprKind
  range : TextRange
deriving DecidableEq, Repr

/-- A struct definition as seen through the oracle; `st.fields(sema.db)`
is modelled as the stored field-name list. -/
structure StructDef where
  fields : List String
deriving DecidableEq, Repr

/-- `hir::Adt`: the algebraic-data-type classification of a type. Payloads
other than the struct field list are not inspected by the pass. -/
inductive Adt where
  | Struct (st : StructDef)
  | Union
  | Enum
deriving DecidableEq, Repr

/-- A resolved type handle: the pass queries `ty.is_unknown()` and
`ty.as_adt()`. -/
structure Ty where
  is_unknown : Bool
  as_adt : Option Adt
deriving DecidableEq, Repr

/-- `TypeInfo` returned by `Semantics::type_of_expr`; the pass reads
`.original`. -/
structure TypeInfo where
  original : Ty
  adjusted : Option Ty
deriving DecidableEq, Repr

/-- A built inlay-hint label. `label_of_ty` builds a segment sequence; the
pass treats it as opaque, so it is modelled as its rendered text. -/
structure InlayHintLabel where
  text : String
deriving DecidableEq, Repr

/-- `InlayKind` (only the chaining variant is produced here). -/
inductive InlayKind where
  | ChainingHint
  | TypeHint
deriving DecidableEq, Repr

/-- A file identifier. -/
abbrev FileId := Nat

/-- `InlayTooltip::HoverRanged(file_id, range)`. -/
inductive InlayTooltip where
  | HoverRanged (file_id : FileId) (range : TextRange)
deriving DecidableEq, Repr

/-- The annotation pushed onto the accumulator. -/
structure InlayHint where
  range : TextRange
  kind : InlayKind
  label : InlayHintLabel
  tooltip : Option InlayTooltip
deriving DecidableEq, Repr

/-- The pass configuration; only `chaining_hints` is read by this pass. -/
structure InlayHintsConfig where
  chaining_hints : Bool
deriving DecidableEq, Repr

/-- The semantic oracle consumed by the pass:
`sema.descend_node_into_attributes`, `sema.type_of_expr`, and the label
builder `label_of_ty(sema, desc_expr, config, ty)` (which reads `sema` and
`config` internally and is fallible). -/
structure Semantics where
  descend_node_into_attributes : Expr → List Expr
  type_of_expr : Expr → Option TypeInfo
  label_of_ty : Expr → Ty → Option InlayHintLabel

/-- Lines 28-29 of the source:
`let descended = sema.descend_node_into_attributes(expr.clone()).pop();`
(`Vec::pop` removes and returns the LAST element) followed by
`let desc_expr = descended.as_ref().unwrap_or(expr);`. -/
def descTarget (sema : Semantics) (expr : Expr) : Expr :=
  ((sema.descend_node_into_attributes expr).getLast?).getD expr

/-- The trivia filter of lines 35-39: drop whitespace tokens containing no
line break and drop comment tokens; keep everything else. -/
def keepToken (t : Token) : Bool :=
  match t.kind with
  | SyntaxKind.WHITESPACE => t.text.contains '\n'
  | SyntaxKind.COMMENT => false
  | _ => true

/-- Lines 31-39: the following-sibling stream restricted to tokens
(`filter_map(NodeOrToken::into_token)`) and filtered through `keepToken`. -/
def filteredTokens (siblings : List NodeOrToken) : List Token :=
  (siblings.filterMap intoToken).filter keepToken

/-- Lines 45-48: `let mut next_next = tokens.next()?;`
`while next_next == SyntaxKind::WHITESPACE { next_next = tokens.next()?; }` —
the first non-whitespace token of the remaining stream, `none` if the
stream is exhausted first. -/
def firstNonWs : List Token → Option Token
  | [] => none
  | t :: ts =>
      if t.kind = SyntaxKind.WHITESPACE then firstNonWs ts else some t

/-- Lines 55-58: `if let Some(hir::Adt::Struct(st)) = ty.as_adt() {
if st.fields(sema.db).is_empty() { return None; } }` — true exactly when the
type is a struct ADT with no fields. -/
def emptyStructCheck (ty : Ty) : Bool :=
  match ty.as_adt with
  | some (Adt.Struct st) => st.fields.isEmpty
  | _ => false

/-- The chaining-hint entry point (`hints` of `chaining.rs`). The Rust
function mutates `acc : &mut Vec<InlayHint>` and returns `Option<()>`; here
the updated accumulator is returned alongside that option. `siblings` is
the node's following-sibling stream, supplied by the tree. -/
def hints (acc : List InlayHint) (sema : Semantics) (config : InlayHintsConfig)
    (file_id : FileId) (expr : Expr) (siblings : List NodeOrToken) :
    List InlayHint × Option Unit :=
  if !config.chaining_hints then (acc, none)
  else if expr.kind = ExprKind.recordExpr then (acc, none)
  else
    match filteredTokens siblings with
    | [] => (acc, none)
    | next :: rest =>
      if next.kind = SyntaxKind.WHITESPACE then
        match firstNonWs rest with
        | none => (acc, none)
        | some next_next =>
          if next_next.kind = SyntaxKind.DOT then
            match sema.type_of_expr (descTarget sema expr) with
            | none => (acc, none)
            | some t =>
              if t.original.is_unknown then (acc, none)
              else if expr.kind = ExprKind.pathExpr && emptyStructCheck t.original then
                (acc, none)
              else
                match sema.label_of_ty (descTarget sema expr) t.original with
                | none => (acc, none)
                | some label =>
                  (acc ++ [{ range := expr.range
                           , kind := InlayKind.ChainingHint
                           , label := label
                           , tooltip := some (InlayTooltip.HoverRanged file_id expr.range) }],
                   some ())
          else (acc, some ())
      else (acc, some ())

end Chaining

namespace EnumGlobUse

/-- HIR node ids (`syntax::ast::NodeId`). -/
abbrev NodeId := Nat

/-- Stable definition ids (`DefId`); the lint only passes them around. -/
abbrev DefId := Nat

/-- A source span (`syntax::codemap::Span`). -/
structure Span where
  lo : Nat
  hi : Nat
deriving DecidableEq, Repr

/-- Item visibility (`rustc_front::hir::Visibility`). -/
inductive Visibility where
  | Public
  | Inherited
deriving DecidableEq, Repr

/-- An import path; the lint never inspects it, so it is kept opaque text. -/
structure UsePath where
  text : String
deriving DecidableEq, Repr

/-- `rustc_front::hir::ViewPath_`: the shape of a `use` item's target. The
lint only distinguishes the glob form. -/
inductive ViewPath_ where
  | ViewPathSimple (name : String) (p : UsePath)
  | ViewPathGlob (p : UsePath)
  | ViewPathList (p : UsePath)
deriving DecidableEq, Repr

/-- A spanned `ViewPath_` (the lint reads `item_use.node`). -/
structure ViewPath where
  node : ViewPath_
  span : Span
deriving DecidableEq, Repr

/-- `rustc_front::hir::Item_`: the item kinds the lint branches on
(`ItemUse(..)` and `ItemEnum(..)`); payloads of the other kinds are never
read and are dropped. -/
inductive Item_ where
  | ItemUse (vp : ViewPath)
  | ItemEnum
  | ItemStruct
  | ItemFn
  | ItemOther
deriving DecidableEq, Repr

/-- A HIR item: the lint reads `item.id`, `item.vis`, `item.node`,
`item.span`. -/
structure Item where
  id : NodeId
  vis : Visibility
  node : Item_
  span : Span
deriving DecidableEq, Repr

/-- A front-map node (`rustc::front::map::Node`); the lint matches
`NodeItem(it)` and ignores every other constructor. -/
inductive Node where
  | NodeItem (it : Item)
  | NodeOther
deriving DecidableEq, Repr

/-- The resolution stored in the def map; the lint reads `def.def_id()`. -/
structure Resolution where
  def_id : DefId
deriving DecidableEq, Repr

/-- `DefPathData`: the namespace tag of one def-path segment; the lint
matches `TypeNs(_)`. -/
inductive DefPathData where
  | TypeNs (name : String)
  | ValueNs (name : String)
  | OtherData
deriving DecidableEq, Repr

/-- One def-path segment (`DisambiguatedDefPathData`); the lint reads
`dpa.data`. -/
structure DisambiguatedDefPathData where
  data : DefPathData
  disambiguator : Nat
deriving DecidableEq, Repr

/-- A stable cross-unit def path (`dp.data` is the segment list; the lint
reads its last element). -/
structure DefPath where
  data : List DisambiguatedDefPathData
  krate : Nat
deriving DecidableEq, Repr

/-- The type representation (`ty.sty`); the lint matches `TyEnum(..)` and
ignores every payload. -/
inductive Sty where
  | TyEnum
  | TyStruct
  | TyOther
deriving DecidableEq, Repr

/-- A compiled type with its representation tag. -/
structure TyS where
  sty : Sty
deriving DecidableEq, Repr

/-- The type scheme returned by `cstore.item_type(...)`; the lint reads
`.ty.sty`. -/
structure TypeScheme where
  ty : TyS
deriving DecidableEq, Repr

/-- Lint severity levels; `ENUM_GLOB_USE` is declared at `Allow`. -/
inductive Level where
  | Allow
  | Warn
  | Deny
  | Forbid
deriving DecidableEq, Repr

/-- A lint identifier with its default level and description, as produced
by `declare_lint!`. -/
structure Lint where
  name : String
  default_level : Level
  desc : String
deriving DecidableEq, Repr

/-- `declare_lint! { pub ENUM_GLOB_USE, Allow, "finds use items that import
all variants of an enum" }`. -/
def ENUM_GLOB_USE : Lint :=
  { name := "ENUM_GLOB_USE"
  , default_level := Level.Allow
  , desc := "finds use items that import all variants of an enum" }

/-- A diagnostic as emitted through `utils::span_lint(cx, lint, span, msg)`. -/
structure Diagnostic where
  lint : Lint
  span : Span
  msg : String
deriving DecidableEq, Repr

/-- `utils::span_lint` builds one diagnostic from a lint id, a span and a
message. -/
def span_lint (lint : Lint) (sp : Span) (msg : String) : Diagnostic :=
  { lint := lint, span := sp, msg := msg }

/-- The pieces of `LateContext` the lint consumes:
`cx.tcx.def_map.borrow().get(&item.id)`, `cx.tcx.map.as_local_node_id`,
`cx.tcx.map.find`, `cx.sess().cstore.relative_def_path`, and
`cx.sess().cstore.item_type(&cx.tcx, _)`. -/
structure LateContext where
  def_map : NodeId → Option Resolution
  as_local_node_id : DefId → Option NodeId
  map_find : NodeId → Option Node
  relative_def_path : DefId → DefPath
  item_type : DefId → TypeScheme

/-- `EnumGlobUse::lint_item` (lines 40-66 of `enum_glob_use.rs`): at most
one diagnostic per item; `none` models "no call to `span_lint`". -/
def lint_item (cx : LateContext) (item : Item) : Option Diagnostic :=
  if item.vis = Visibility.Public then none
  else
    match item.node with
    | Item_.ItemUse item_use =>
      match item_use.node with
      | ViewPath_.ViewPathGlob _ =>
        match cx.def_map item.id with
        | none => none
        | some d =>
          match cx.as_local_node_id d.def_id with
          | some node_id =>
            match cx.map_find node_id with
            | some (Node.NodeItem it) =>
              match it.node with
              | Item_.ItemEnum =>
                some (span_lint ENUM_GLOB_USE item.span
                  "don\x27t use glob imports for enum variants")
              | _ => none
            | _ => none
          | none =>
            match (cx.relative_def_path d.def_id).data.getLast? with
            | some dpa =>
              match dpa.data with
              | DefPathData.TypeNs _ =>
                match (cx.item_type d.def_id).ty.sty with
                | Sty.TyEnum =>
                  some (span_lint ENUM_GLOB_USE item.span
                    "don\x27t use glob imports for enum variants")
                | _ => none
              | _ => none
            | none => none
      | _ => none
    | _ => none

/-- Modelled from the spec (§3 Definition, §4.2 Resolve-definition): the
single classification contract "is this definition an enum type", written
out for each of the two resolution paths — the local path classifies the
found item's syntactic kind, the external path inspects the stable def
path's last segment's namespace tag and the compiled type representation. -/
def isEnumDefinition (cx : LateContext) (d : Resolution) : Bool :=
  match cx.as_local_node_id d.def_id with
  | some node_id =>
    match cx.map_find node_id with
    | some (Node.NodeItem it) =>
      match it.node with
      | Item_.ItemEnum => true
      | _ => false
    | _ => false
  | none =>
    match (cx.relative_def_path d.def_id).data.getLast? with
    | some dpa =>
      match dpa.data with
      | DefPathData.TypeNs _ =>
        match (cx.item_type d.def_id).ty.sty with
        | Sty.TyEnum => true
        | _ => false
      | _ => false
    | none => false

end EnumGlobUse

namespace Chaining

/-- Any emission of `hints` appends one fully built hint to the end of the
accumulator; every other branch leaves the accumulator untouched. -/
theorem hints_fst_append (acc : List InlayHint) (sema : Semantics)
    (config : InlayHintsConfig) (file_id : FileId) (expr : Expr)
    (siblings : List NodeOrToken) :
    ∃ o : Option InlayHint,
      (hints acc sema config file_id expr siblings).1 = acc ++ o.toList := by
  unfold hints
  repeat' split
  all_goals
    first
      | exact ⟨none, (List.append_nil acc).symm⟩
      | exact ⟨some _, rfl⟩

end Chaining

/-- C4: a record-construction expression (`Struct { field: value }` form)
never receives a chaining hint, for every configuration, oracle, file,
range and sibling stream. -/
theorem c4_record_expr_never_hinted (acc : List Chaining.InlayHint)
    (sema : Chaining.Semantics) (config : Chaining.InlayHintsConfig)
    (file_id : Chaining.FileId) (r : Chaining.TextRange)
    (siblings : List Chaining.NodeOrToken) :
    (Chaining.hints acc sema config file_id
        { kind := Chaining.ExprKind.recordExpr, range := r } siblings).1 = acc := by
  cases hc : config.chaining_hints <;> simp [Chaining.hints, hc]

/-- C2: if the first token of the filtered following-sibling stream is not
a line-break-containing whitespace token (for example, a bare `.` on the
same line), then `hints` leaves the accumulator unchanged: no chaining
hint is emitted for that node. -/
theorem c2_single_line_chain_no_hint (acc : List Chaining.InlayHint)
    (sema : Chaining.Semantics) (config : Chaining.InlayHintsConfig)
    (file_id : Chaining.FileId) (expr : Chaining.Expr)
    (siblings : List Chaining.NodeOrToken) (t : Chaining.Token)
    (rest : List Chaining.Token)
    (hhead : Chaining.filteredTokens siblings = t :: rest)
    (hnotws : ¬(t.kind = Chaining.SyntaxKind.WHITESPACE
                ∧ t.text.contains '\n' = true)) :
    (Chaining.hints acc sema config file_id expr siblings).1 = acc := by
  have hmem : t ∈ Chaining.filteredTokens siblings := by
    rw [hhead]; exact List.mem_cons_self t rest
  have hkeep : Chaining.keepToken t = true :=
    (List.mem_filter.mp hmem).2
  have hkind : ¬(t.kind = Chaining.SyntaxKind.WHITESPACE) := by
    intro hk
    exact hnotws ⟨hk, by simpa [Chaining.keepToken, hk] using hkeep⟩
  unfold Chaining.hints
  rw [hhead]
  split
  · rfl
  split
  · rfl
  dsimp only
  rw [if_neg hkind]

/-- C3: comment tokens and whitespace tokens without a line break are
filtered out of the sibling stream before chain-continuation matching, so
inserting such a token anywhere in the stream leaves the result of `hints`
(accumulator and return value alike) unchanged; in particular it never
suppresses a hint that would otherwise be emitted. -/
theorem c3_trivia_insertion_invariant (acc : List Chaining.InlayHint)
    (sema : Chaining.Semantics) (config : Chaining.InlayHintsConfig)
    (file_id : Chaining.FileId) (expr : Chaining.Expr)
    (s1 s2 : List Chaining.NodeOrToken) (t : Chaining.Token)
    (ht : t.kind = Chaining.SyntaxKind.COMMENT
          ∨ (t.kind = Chaining.SyntaxKind.WHITESPACE
             ∧ t.text.contains '\n' = false)) :
    Chaining.hints acc sema config file_id expr
        (s1 ++ Chaining.NodeOrToken.token t :: s2)
      = Chaining.hints acc sema config file_id expr (s1 ++ s2) := by
  have hkeep : Chaining.keepToken t = false := by
    rcases ht with h | ⟨h1, h2⟩
    · simp [Chaining.keepToken, h]
    · simp only [Chaining.keepToken, h1]
      exact h2
  have hft : Chaining.filteredTokens (s1 ++ Chaining.NodeOrToken.token t :: s2)
      = Chaining.filteredTokens (s1 ++ s2) := by
    unfold Chaining.filteredTokens
    simp [List.filterMap_append, List.filter_append, Chaining.intoToken, hkeep]
  unfold Chaining.hints
  rw [hft]

/-- C10: the descended query target is the last candidate returned by
macro/attribute expansion when there is one (`Vec::pop` removes the last
element), and the original expression when expansion returns no
candidates. -/
theorem c10_descend_pop_takes_last (sema : Chaining.Semantics)
    (expr : Chaining.Expr) :
    (∀ (ds : List Chaining.Expr) (e : Chaining.Expr),
        sema.descend_node_into_attributes expr = ds ++ [e] →
        Chaining.descTarget sema expr = e)
    ∧ (sema.descend_node_into_attributes expr = [] →
        Chaining.descTarget sema expr = expr) := by
  constructor
  · intro ds e h
    unfold Chaining.descTarget
    rw [h]
    simp
  · intro h
    unfold Chaining.descTarget
    rw [h]
    rfl

/-- C5: for a bare path-reference expression matching the
chain-continuation shape with a resolved, known record (struct) type and a
buildable label, `hints` emits no hint when the struct has zero fields and
emits exactly one hint when it has at least one field. -/
theorem c5_zero_field_struct_path_suppression (acc : List Chaining.InlayHint)
    (sema : Chaining.Semantics) (config : Chaining.InlayHintsConfig)
    (file_id : Chaining.FileId) (r : Chaining.TextRange)
    (siblings : List Chaining.NodeOrToken) (t nn : Chaining.Token)
    (rest : List Chaining.Token) (st : Chaining.StructDef)
    (ti : Chaining.TypeInfo) (lbl : Chaining.InlayHintLabel)
    (hcfg : config.chaining_hints = true)
    (hhead : Chaining.filteredTokens siblings = t :: rest)
    (hws : t.kind = Chaining.SyntaxKind.WHITESPACE)
    (hnn : Chaining.firstNonWs rest = some nn)
    (hdot : nn.kind = Chaining.SyntaxKind.DOT)
    (hty : sema.type_of_expr
        (Chaining.descTarget sema
          { kind := Chaining.ExprKind.pathExpr, range := r }) = some ti)
    (hknown : ti.original.is_unknown = false)
    (hadt : ti.original.as_adt = some (Chaining.Adt.Struct st))
    (hlbl : sema.label_of_ty
        (Chaining.descTarget sema
          { kind := Chaining.ExprKind.pathExpr, range := r })
        ti.original = some lbl) :
    (st.fields = [] →
      (Chaining.hints acc sema config file_id
          { kind := Chaining.ExprKind.pathExpr, range := r } siblings).1 = acc)
    ∧ (st.fields ≠ [] →
      (Chaining.hints acc sema config file_id
          { kind := Chaining.ExprKind.pathExpr, range := r } siblings).1
        = acc ++ [{ range := r
                  , kind := Chaining.InlayKind.ChainingHint
                  , label := lbl
                  , tooltip := some (Chaining.InlayTooltip.HoverRanged file_id r) }]) := by
  have hempty : Chaining.emptyStructCheck ti.original = st.fields.isEmpty := by
    simp [Chaining.emptyStructCheck, hadt]
  constructor
  · intro hf
    simp [Chaining.hints, hcfg, hhead, hws, hnn, hdot, hty, hknown, hempty, hf]
  · intro hf
    simp [Chaining.hints, hcfg, hhead, hws, hnn, hdot, hty, hknown, hempty, hlbl,
      List.isEmpty_iff, hf]

/-- C6: whenever `hints` emits a hint, the type and label are queried at
the descended (macro/attribute-expanded) node `descTarget sema expr`, while
the hint's anchor range and its hover-detail tooltip range both equal the
full text range of the original expression node. -/
theorem c6_query_descended_report_original (acc : List Chaining.InlayHint)
    (sema : Chaining.Semantics) (config : Chaining.InlayHintsConfig)
    (file_id : Chaining.FileId) (expr : Chaining.Expr)
    (siblings : List Chaining.NodeOrToken) (t nn : Chaining.Token)
    (rest : List Chaining.Token) (ti : Chaining.TypeInfo)
    (lbl : Chaining.InlayHintLabel)
    (hcfg : config.chaining_hints = true)
    (hrec : expr.kind ≠ Chaining.ExprKind.recordExpr)
    (hhead : Chaining.filteredTokens siblings = t :: rest)
    (hws : t.kind = Chaining.SyntaxKind.WHITESPACE)
    (hnn : Chaining.firstNonWs rest = some nn)
    (hdot : nn.kind = Chaining.SyntaxKind.DOT)
    (hty : sema.type_of_expr (Chaining.descTarget sema expr) = some ti)
    (hknown : ti.original.is_unknown = false)
    (hsupp : expr.kind = Chaining.ExprKind.pathExpr →
        Chaining.emptyStructCheck ti.original = false)
    (hlbl : sema.label_of_ty (Chaining.descTarget sema expr) ti.original
        = some lbl) :
    (Chaining.hints acc sema config file_id expr siblings).1
      = acc ++ [{ range := expr.range
                , kind := Chaining.InlayKind.ChainingHint
                , label := lbl
                , tooltip := some (Chaining.InlayTooltip.HoverRanged file_id
                    expr.range) }] := by
  by_cases hk : expr.kind = Chaining.ExprKind.pathExpr
  · simp [Chaining.hints, hcfg, hrec, hhead, hws, hnn, hdot, hty, hknown, hlbl,
      hk, hsupp hk]
  · simp [Chaining.hints, hcfg, hrec, hhead, hws, hnn, hdot, hty, hknown, hlbl, hk]

/-- C9: both entry points are atomic per node: `hints` either appends
exactly one fully built hint to the end of the caller's accumulator or
returns it unchanged (existing entries are never modified or removed), and
`lint_item` produces either no diagnostic or exactly one; neither has any
error outcome beyond producing no output. -/
theorem c9_total_atomic_per_node (acc : List Chaining.InlayHint)
    (sema : Chaining.Semantics) (config : Chaining.InlayHintsConfig)
    (file_id : Chaining.FileId) (expr : Chaining.Expr)
    (siblings : List Chaining.NodeOrToken)
    (cx : EnumGlobUse.LateContext) (item : EnumGlobUse.Item) :
    (∃ o : Option Chaining.InlayHint,
        (Chaining.hints acc sema config file_id expr siblings).1
          = acc ++ o.toList)
    ∧ (EnumGlobUse.lint_item cx item = none
       ∨ ∃ d : EnumGlobUse.Diagnostic, EnumGlobUse.lint_item cx item = some d) := by
  constructor
  · exact Chaining.hints_fst_append acc sema config file_id expr siblings
  · cases h : EnumGlobUse.lint_item cx item with
    | none => exact Or.inl rfl
    | some d => exact Or.inr ⟨d, rfl⟩

namespace EnumGlobUse

/-- On a non-public glob `use` item whose target resolves, `lint_item`
fires exactly when the resolved definition classifies as an enum type
under the resolution path that applies to it. -/
theorem lint_item_isSome_eq_isEnumDefinition (cx : LateContext) (item : Item)
    (vp : ViewPath) (p : UsePath) (d : Resolution)
    (hvis : ¬(item.vis = Visibility.Public))
    (hnode : item.node = Item_.ItemUse vp)
    (hglob : vp.node = ViewPath_.ViewPathGlob p)
    (hdef : cx.def_map item.id = some d) :
    (lint_item cx item).isSome = isEnumDefinition cx d := by
  unfold lint_item isEnumDefinition
  rw [if_neg hvis, hnode]
  dsimp only
  rw [hglob]
  dsimp only
  rw [hdef]
  dsimp only
  cases hl : cx.as_local_node_id d.def_id with
  | some nid =>
    cases hf : cx.map_find nid with
    | none => simp [hf]
    | some nd =>
      cases nd with
      | NodeItem it => cases hit : it.node <;> simp [hf, hit]
      | NodeOther => simp [hf]
  | none =>
    cases hg : (cx.relative_def_path d.def_id).data.getLast? with
    | none => simp [hg]
    | some dpa =>
      cases hd : dpa.data with
      | TypeNs n => cases hs : (cx.item_type d.def_id).ty.sty <;> simp [hg, hd, hs]
      | ValueNs n => simp [hg, hd]
      | OtherData => simp [hg, hd]

end EnumGlobUse

/-- C1: for non-public glob `use` items resolving to the same definition,
the lint fires if and only if that definition classifies as an enum type —
through the local path (node lookup classified by syntactic item kind) and
through the external path (def path with type-namespace last segment,
classified by the compiled type representation) alike; whenever the two
paths agree on the classification of the same logical entity, the lint
outcomes agree as well. -/
theorem c1_dual_path_classification_agreement
    (cxL cxE : EnumGlobUse.LateContext) (itemL itemE : EnumGlobUse.Item)
    (vpL vpE : EnumGlobUse.ViewPath) (pL pE : EnumGlobUse.UsePath)
    (d : EnumGlobUse.Resolution)
    (hvisL : ¬(itemL.vis = EnumGlobUse.Visibility.Public))
    (hnodeL : itemL.node = EnumGlobUse.Item_.ItemUse vpL)
    (hglobL : vpL.node = EnumGlobUse.ViewPath_.ViewPathGlob pL)
    (hdefL : cxL.def_map itemL.id = some d)
    (hvisE : ¬(itemE.vis = EnumGlobUse.Visibility.Public))
    (hnodeE : itemE.node = EnumGlobUse.Item_.ItemUse vpE)
    (hglobE : vpE.node = EnumGlobUse.ViewPath_.ViewPathGlob pE)
    (hdefE : cxE.def_map itemE.id = some d) :
    (EnumGlobUse.lint_item cxL itemL).isSome = EnumGlobUse.isEnumDefinition cxL d
    ∧ (EnumGlobUse.lint_item cxE itemE).isSome
        = EnumGlobUse.isEnumDefinition cxE d
    ∧ (EnumGlobUse.isEnumDefinition cxL d = EnumGlobUse.isEnumDefinition cxE d →
        (EnumGlobUse.lint_item cxL itemL).isSome
          = (EnumGlobUse.lint_item cxE itemE).isSome) := by
  have hL := EnumGlobUse.lint_item_isSome_eq_isEnumDefinition cxL itemL vpL pL d
    hvisL hnodeL hglobL hdefL
  have hE := EnumGlobUse.lint_item_isSome_eq_isEnumDefinition cxE itemE vpE pE d
    hvisE hnodeE hglobE hdefE
  refine ⟨hL, hE, ?_⟩
  intro hagree
  rw [hL, hE, hagree]

/-- C7: a public `use` item never triggers the glob-import lint, even when
it is a glob import of an enum; the same glob import of an enum at
non-public visibility does trigger it. -/
theorem c7_public_reexport_exempt (cx : EnumGlobUse.LateContext)
    (item : EnumGlobUse.Item) (vp : EnumGlobUse.ViewPath)
    (p : EnumGlobUse.UsePath) (d : EnumGlobUse.Resolution)
    (nid : EnumGlobUse.NodeId) (it : EnumGlobUse.Item)
    (hnode : item.node = EnumGlobUse.Item_.ItemUse vp)
    (hglob : vp.node = EnumGlobUse.ViewPath_.ViewPathGlob p)
    (hdef : cx.def_map item.id = some d)
    (hloc : cx.as_local_node_id d.def_id = some nid)
    (hfind : cx.map_find nid = some (EnumGlobUse.Node.NodeItem it))
    (henum : it.node = EnumGlobUse.Item_.ItemEnum) :
    EnumGlobUse.lint_item cx
        { item with vis := EnumGlobUse.Visibility.Public } = none
    ∧ (¬(item.vis = EnumGlobUse.Visibility.Public) →
        (EnumGlobUse.lint_item cx item).isSome = true) := by
  constructor
  · simp [EnumGlobUse.lint_item]
  · intro hv
    simp [EnumGlobUse.lint_item, hv, hnode, hglob, hdef, hloc, hfind, henum]

/-- C8: every diagnostic `lint_item` emits carries the fixed message text
"don\x27t use glob imports for enum variants", is spanned at the full `use`
item's span, and is registered under the `ENUM_GLOB_USE` lint identifier,
whose default severity level is `Allow`. -/
theorem c8_diagnostic_shape (cx : EnumGlobUse.LateContext)
    (item : EnumGlobUse.Item) (dg : EnumGlobUse.Diagnostic)
    (h : EnumGlobUse.lint_item cx item = some dg) :
    dg.msg = "don\x27t use glob imports for enum variants"
    ∧ dg.span = item.span
    ∧ dg.lint = EnumGlobUse.ENUM_GLOB_USE
    ∧ EnumGlobUse.ENUM_GLOB_USE.default_level = EnumGlobUse.Level.Allow := by
  unfold EnumGlobUse.lint_item at h
  repeat' split at h
  all_goals
    first
      | (simp only [Option.some.injEq] at h
         rw [← h]
         exact ⟨rfl, rfl, rfl, rfl⟩)
      | simp at h

namespace Chaining

/-- Concrete test fixture: an empty accumulator. -/
def accW : List InlayHint := []

/-- Concrete test fixture: range of a chain-link expression. -/
def rW : TextRange := { start := 100, stop := 125 }

/-- Concrete test fixture: whitespace token containing a line break. -/
def wsNlTok : Token := { kind := SyntaxKind.WHITESPACE, text := ['\n', ' ', ' '] }

/-- Concrete test fixture: whitespace token without a line break. -/
def wsFlatTok : Token := { kind := SyntaxKind.WHITESPACE, text := [' ', ' '] }

/-- Concrete test fixture: a `.` token. -/
def dotTok : Token := { kind := SyntaxKind.DOT, text := ['.'] }

/-- Concrete test fixture: a line-comment token. -/
def cmtTok : Token := { kind := SyntaxKind.COMMENT, text := ['/', '/', ' ', 'c'] }

/-- Concrete test fixture: an identifier token. -/
def identTok : Token := { kind := SyntaxKind.IDENT, text := ['i', 'd'] }

/-- Concrete test fixture: a one-field struct. -/
def stW : StructDef := { fields := ["f0"] }

/-- Concrete test fixture: a known struct type with one field. -/
def tyW : Ty := { is_unknown := false, as_adt := some (Adt.Struct stW) }

/-- Concrete test fixture: type info wrapping `tyW`. -/
def tiW : TypeInfo := { original := tyW, adjusted := none }

/-- Concrete test fixture: a built label. -/
def lblW : InlayHintLabel := { text := "B" }

/-- Concrete test fixture: chaining hints enabled. -/
def cfgOn : InlayHintsConfig := { chaining_hints := true }

/-- Concrete test fixture: a path expression. -/
def exprPathW : Expr := { kind := ExprKind.pathExpr, range := rW }

/-- Concrete test fixture: a method-call expression. -/
def exprMethodW : Expr := { kind := ExprKind.methodCallExpr, range := rW }

/-- Concrete test fixture: an oracle with no macro descent, a known
one-field struct type, and a buildable label. -/
def semaW : Semantics :=
  { descend_node_into_attributes := fun _ => []
  , type_of_expr := fun _ => some tiW
  , label_of_ty := fun _ _ => some lblW }

/-- Concrete test fixture: sibling stream `newline-whitespace, dot, ident`
(a chain continuation crossing a line break). -/
def sibsChainW : List NodeOrToken :=
  [NodeOrToken.token wsNlTok, NodeOrToken.token dotTok, NodeOrToken.token identTok]

/-- Concrete test fixture: sibling stream `flat-whitespace, dot` (a chain
continuation on the same line). -/
def sibsFlatW : List NodeOrToken :=
  [NodeOrToken.token wsFlatTok, NodeOrToken.token dotTok]

/-- Concrete test fixture: a descended node distinct from the original. -/
def exprDescW : Expr :=
  { kind := ExprKind.methodCallExpr, range := { start := 7, stop := 9 } }

/-- Concrete test fixture: an oracle whose macro descent returns two
candidates. -/
def semaDescW : Semantics :=
  { descend_node_into_attributes := fun _ => [exprPathW, exprDescW]
  , type_of_expr := fun _ => none
  , label_of_ty := fun _ _ => none }

end Chaining

/-- C2 witness: on the concrete same-line stream `[flat whitespace, dot]`
the hypotheses hold and no hint is emitted. -/
theorem c2_single_line_chain_no_hint_witness :
    Chaining.filteredTokens Chaining.sibsFlatW = Chaining.dotTok :: []
    ∧ ¬(Chaining.dotTok.kind = Chaining.SyntaxKind.WHITESPACE
        ∧ Chaining.dotTok.text.contains '\n' = true)
    ∧ (Chaining.hints Chaining.accW Chaining.semaW Chaining.cfgOn 0
        Chaining.exprMethodW Chaining.sibsFlatW).1 = Chaining.accW :=
  ⟨by decide, by decide,
   c2_single_line_chain_no_hint Chaining.accW Chaining.semaW Chaining.cfgOn 0
     Chaining.exprMethodW Chaining.sibsFlatW Chaining.dotTok [] (by decide)
     (by decide)⟩

/-- C3 witness: inserting a concrete line comment right after the
expression (before its newline and dot) leaves the pass's output
unchanged. -/
theorem c3_trivia_insertion_invariant_witness :
    Chaining.cmtTok.kind = Chaining.SyntaxKind.COMMENT
    ∧ Chaining.hints Chaining.accW Chaining.semaW Chaining.cfgOn 0
        Chaining.exprMethodW
        ([] ++ Chaining.NodeOrToken.token Chaining.cmtTok :: Chaining.sibsChainW)
      = Chaining.hints Chaining.accW Chaining.semaW Chaining.cfgOn 0
          Chaining.exprMethodW ([] ++ Chaining.sibsChainW) :=
  ⟨by decide,
   c3_trivia_insertion_invariant Chaining.accW Chaining.semaW Chaining.cfgOn 0
     Chaining.exprMethodW [] Chaining.sibsChainW Chaining.cmtTok
     (Or.inl (by decide))⟩

/-- C10 witness: with a concrete two-candidate descent the query target is
the second (last) candidate, and with an empty descent it is the original
expression. -/
theorem c10_descend_pop_takes_last_witness :
    Chaining.semaDescW.descend_node_into_attributes Chaining.exprMethodW
        = [Chaining.exprPathW] ++ [Chaining.exprDescW]
    ∧ Chaining.descTarget Chaining.semaDescW Chaining.exprMethodW
        = Chaining.exprDescW
    ∧ Chaining.semaW.descend_node_into_attributes Chaining.exprMethodW = []
    ∧ Chaining.descTarget Chaining.semaW Chaining.exprMethodW
        = Chaining.exprMethodW :=
  ⟨by decide,
   (c10_descend_pop_takes_last Chaining.semaDescW Chaining.exprMethodW).1
     [Chaining.exprPathW] Chaining.exprDescW (by decide),
   by decide,
   (c10_descend_pop_takes_last Chaining.semaW Chaining.exprMethodW).2 rfl⟩

/-- C5 witness: a concrete path expression of a one-field struct type, in
chain-continuation position, receives exactly one hint. -/
theorem c5_zero_field_struct_path_suppression_witness :
    Chaining.cfgOn.chaining_hints = true
    ∧ Chaining.filteredTokens Chaining.sibsChainW
        = Chaining.wsNlTok :: [Chaining.dotTok, Chaining.identTok]
    ∧ Chaining.wsNlTok.kind = Chaining.SyntaxKind.WHITESPACE
    ∧ Chaining.firstNonWs [Chaining.dotTok, Chaining.identTok]
        = some Chaining.dotTok
    ∧ Chaining.dotTok.kind = Chaining.SyntaxKind.DOT
    ∧ Chaining.semaW.type_of_expr
        (Chaining.descTarget Chaining.semaW Chaining.exprPathW)
        = some Chaining.tiW
    ∧ Chaining.tiW.original.is_unknown = false
    ∧ Chaining.tiW.original.as_adt = some (Chaining.Adt.Struct Chaining.stW)
    ∧ Chaining.semaW.label_of_ty
        (Chaining.descTarget Chaining.semaW Chaining.exprPathW)
        Chaining.tiW.original = some Chaining.lblW
    ∧ Chaining.stW.fields ≠ []
    ∧ (Chaining.hints Chaining.accW Chaining.semaW Chaining.cfgOn 0
          Chaining.exprPathW Chaining.sibsChainW).1
        = Chaining.accW
          ++ [{ range := Chaining.rW
              , kind := Chaining.InlayKind.ChainingHint
              , label := Chaining.lblW
              , tooltip := some (Chaining.InlayTooltip.HoverRanged 0 Chaining.rW) }] :=
  ⟨by decide, by decide, by decide, by decide, by decide, by decide, by decide,
   by decide, by decide, by decide,
   (c5_zero_field_struct_path_suppression Chaining.accW Chaining.semaW
      Chaining.cfgOn 0 Chaining.rW Chaining.sibsChainW Chaining.wsNlTok
      Chaining.dotTok [Chaining.dotTok, Chaining.identTok] Chaining.stW
      Chaining.tiW Chaining.lblW (by decide) (by decide) (by decide) (by decide)
      (by decide) (by decide) (by decide) (by decide) (by decide)).2
     (by decide)⟩

/-- C6 witness: a concrete emitted hint is anchored at the original
expression's range, with the hover-detail tooltip at that same range. -/
theorem c6_query_descended_report_original_witness :
    Chaining.exprMethodW.kind ≠ Chaining.ExprKind.recordExpr
    ∧ Chaining.semaW.type_of_expr
        (Chaining.descTarget Chaining.semaW Chaining.exprMethodW)
        = some Chaining.tiW
    ∧ (Chaining.hints Chaining.accW Chaining.semaW Chaining.cfgOn 5
          Chaining.exprMethodW Chaining.sibsChainW).1
        = Chaining.accW
          ++ [{ range := Chaining.exprMethodW.range
              , kind := Chaining.InlayKind.ChainingHint
              , label := Chaining.lblW
              , tooltip := some (Chaining.InlayTooltip.HoverRanged 5
                  Chaining.exprMethodW.range) }] :=
  ⟨by decide, by decide,
   c6_query_descended_report_original Chaining.accW Chaining.semaW Chaining.cfgOn
     5 Chaining.exprMethodW Chaining.sibsChainW Chaining.wsNlTok Chaining.dotTok
     [Chaining.dotTok, Chaining.identTok] Chaining.tiW Chaining.lblW (by decide)
     (by decide) (by decide) (by decide) (by decide) (by decide) (by decide)
     (by decide) (by decide) (by decide)⟩

namespace EnumGlobUse

/-- Concrete test fixture: span of the `use` item. -/
def spanUseW : Span := { lo := 0, hi := 30 }

/-- Concrete test fixture: span of the enum definition. -/
def spanEnumW : Span := { lo := 40, hi := 80 }

/-- Concrete test fixture: the glob's path. -/
def upathW : UsePath := { text := "m::E" }

/-- Concrete test fixture: a glob view path. -/
def vpGlobW : ViewPath := { node := ViewPath_.ViewPathGlob upathW, span := spanUseW }

/-- Concrete test fixture: a local enum item at node id 2. -/
def enumItemW : Item :=
  { id := 2, vis := Visibility.Inherited, node := Item_.ItemEnum, span := spanEnumW }

/-- Concrete test fixture: a non-public glob `use` item at node id 1. -/
def useItemW : Item :=
  { id := 1, vis := Visibility.Inherited, node := Item_.ItemUse vpGlobW
  , span := spanUseW }

/-- Concrete test fixture: the resolution of the glob's target. -/
def resW : Resolution := { def_id := 10 }

/-- Concrete test fixture: a context resolving def id 10 locally to the
enum item at node id 2 (the local resolution path). -/
def cxLocalW : LateContext :=
  { def_map := fun nid => if nid = 1 then some resW else none
  , as_local_node_id := fun did => if did = 10 then some 2 else none
  , map_find := fun nid => if nid = 2 then some (Node.NodeItem enumItemW) else none
  , relative_def_path := fun _ => { data := [], krate := 0 }
  , item_type := fun _ => { ty := { sty := Sty.TyOther } } }

/-- Concrete test fixture: a context resolving def id 10 through the
external metadata path, with a type-namespace last segment and an enum
type representation. -/
def cxExternW : LateContext :=
  { def_map := fun nid => if nid = 1 then some resW else none
  , as_local_node_id := fun _ => none
  , map_find := fun _ => none
  , relative_def_path := fun _ =>
      { data := [{ data := DefPathData.TypeNs "E", disambiguator := 0 }]
      , krate := 3 }
  , item_type := fun _ => { ty := { sty := Sty.TyEnum } } }

/-- Concrete test fixture: the diagnostic the lint emits on `useItemW`. -/
def dgW : Diagnostic :=
  span_lint ENUM_GLOB_USE spanUseW "don\x27t use glob imports for enum variants"

end EnumGlobUse

/-- C1 witness: the same resolution, once resolved locally and once through
the external metadata path, both classified as an enum, fires the lint in
both contexts. -/
theorem c1_dual_path_classification_agreement_witness :
    (EnumGlobUse.lint_item EnumGlobUse.cxLocalW EnumGlobUse.useItemW).isSome
        = EnumGlobUse.isEnumDefinition EnumGlobUse.cxLocalW EnumGlobUse.resW
    ∧ (EnumGlobUse.lint_item EnumGlobUse.cxExternW EnumGlobUse.useItemW).isSome
        = EnumGlobUse.isEnumDefinition EnumGlobUse.cxExternW EnumGlobUse.resW
    ∧ (EnumGlobUse.isEnumDefinition EnumGlobUse.cxLocalW EnumGlobUse.resW
          = EnumGlobUse.isEnumDefinition EnumGlobUse.cxExternW EnumGlobUse.resW →
        (EnumGlobUse.lint_item EnumGlobUse.cxLocalW EnumGlobUse.useItemW).isSome
          = (EnumGlobUse.lint_item EnumGlobUse.cxExternW
              EnumGlobUse.useItemW).isSome) :=
  c1_dual_path_classification_agreement EnumGlobUse.cxLocalW EnumGlobUse.cxExternW
    EnumGlobUse.useItemW EnumGlobUse.useItemW EnumGlobUse.vpGlobW
    EnumGlobUse.vpGlobW EnumGlobUse.upathW EnumGlobUse.upathW EnumGlobUse.resW
    (by decide) rfl rfl (by decide) (by decide) rfl rfl (by decide)

/-- C7 witness: the concrete glob import of a local enum is linted when
non-public and exempt when public. -/
theorem c7_public_reexport_exempt_witness :
    EnumGlobUse.lint_item EnumGlobUse.cxLocalW
        { EnumGlobUse.useItemW with vis := EnumGlobUse.Visibility.Public } = none
    ∧ (EnumGlobUse.lint_item EnumGlobUse.cxLocalW EnumGlobUse.useItemW).isSome
        = true :=
  have h := c7_public_reexport_exempt EnumGlobUse.cxLocalW EnumGlobUse.useItemW
    EnumGlobUse.vpGlobW EnumGlobUse.upathW EnumGlobUse.resW 2 EnumGlobUse.enumItemW
    rfl rfl (by decide) (by decide) (by decide) rfl
  ⟨h.1, h.2 (by decide)⟩

/-- C8 witness: the concrete diagnostic emitted on `useItemW` carries the
fixed message, the item's span, and the `ENUM_GLOB_USE` identifier with
default level `Allow`. -/
theorem c8_diagnostic_shape_witness :
    EnumGlobUse.lint_item EnumGlobUse.cxLocalW EnumGlobUse.useItemW
        = some EnumGlobUse.dgW
    ∧ (EnumGlobUse.dgW.msg = "don\x27t use glob imports for enum variants"
       ∧ EnumGlobUse.dgW.span = EnumGlobUse.useItemW.span
       ∧ EnumGlobUse.dgW.lint = EnumGlobUse.ENUM_GLOB_USE
       ∧ EnumGlobUse.ENUM_GLOB_USE.default_level = EnumGlobUse.Level.Allow) :=
  ⟨by decide,
   c8_diagnostic_shape EnumGlobUse.cxLocalW EnumGlobUse.useItemW EnumGlobUse.dgW
     (by decide)⟩
